import Mathlib

/-!
Verification of the Boost Agency CRUD backend (Node.js/Express/PostgreSQL).

The repository's repositories ("models") wrap parameterized SQL against a
relational store.  We embed each table as a Lean list of rows, each model
method as a pure function on that list (stateful SQL becomes explicit state
passing; fallible code returns `Except`), and the jsonb column values as a
structural `Json` type.  `JSON.stringify` before insert composed with the
jsonb column and the driver's parse on read round-trips to the same
structured value, so jsonb columns are modelled directly as `Json`.
Surrogate ids and `created_at`/`updated_at` timestamps are store-generated
audit fields and are not modelled.
-/

/-- JSON values as stored in `jsonb` columns (`features`, `topics`,
`content_data`).  Numbers are modelled as integers; none of the verified
operations computes on numeric JSON leaves. -/
inductive Json where
  | null : Json
  | bool (b : Bool) : Json
  | num (n : Int) : Json
  | str (s : String) : Json
  | arr (xs : List Json) : Json
  | obj (fields : List (String × Json)) : Json
deriving Repr

/-- Key lookup in a jsonb object (association list). -/
def lookupKey : List (String × Json) → String → Option Json
  | [], _ => none
  | (k, v) :: rest, key => if k = key then some v else lookupKey rest key

/-- Replace the value at a key, or append the key when absent
(jsonb object update). -/
def setKey : List (String × Json) → String → Json → List (String × Json)
  | [], key, v => [(key, v)]
  | (k, w) :: rest, key, v =>
      if k = key then (k, v) :: rest else (k, w) :: setKey rest key v

/-- PostgreSQL `jsonb_set(target, path, new_value, true)` on object paths:
the item at `path` is replaced (or created, for the last step only).  Per the
PostgreSQL documentation, all earlier steps of the path must exist, otherwise
the target is returned unchanged — missing intermediate objects are NOT
created.  Array-index steps and paths stepping into scalars are outside the
verified inputs and leave the target unchanged here. -/
def jsonbSet : Json → List String → Json → Json
  | j, [], _ => j
  | Json.obj fields, [k], v => Json.obj (setKey fields k v)
  | Json.obj fields, k :: k2 :: rest, v =>
      match lookupKey fields k with
      | some child => Json.obj (setKey fields k (jsonbSet child (k2 :: rest) v))
      | none => Json.obj fields
  | j, _ :: _, _ => j

/-- Read the value at an object path (the jsonb `#>` accessor on object
keys); `none` when the path does not exist. -/
def getPath : Json → List String → Option Json
  | j, [] => some j
  | Json.obj fields, k :: rest =>
      match lookupKey fields k with
      | some child => getPath child rest
      | none => none
  | _, _ :: _ => none

/-- All intermediate steps of the path exist and are objects, and the final
container is an object (so `jsonb_set` with `create_if_missing = true` can
place the value; the last key itself may be new). -/
def pathFits : Json → List String → Bool
  | Json.obj _, [_] => true
  | Json.obj fields, k :: k2 :: rest =>
      match lookupKey fields k with
      | some child => pathFits child (k2 :: rest)
      | none => false
  | _, _ => false

/-- JavaScript `String.prototype.split(sep)` for a one-character separator,
as used by `path.split(".")` and `authHeader.split(" ")`. -/
def splitOnCharAux (sep : Char) : List Char → List Char → List String
  | [], acc => [String.mk acc.reverse]
  | c :: cs, acc =>
      if c = sep then String.mk acc.reverse :: splitOnCharAux sep cs []
      else splitOnCharAux sep cs (c :: acc)

/-- JavaScript `s.split(sep)` (single-character separator). -/
def splitOnChar (sep : Char) (s : String) : List String :=
  splitOnCharAux sep s.data []

/-- `Content.updatePartial` turns the dotted path into a jsonb path literal
(the source joins the dot-split segments with commas inside braces, and
PostgreSQL parses that text back into the list of steps); the composite of
the two is the split on dots, for example "hero.titulo" becomes the steps
["hero", "titulo"]. -/
def translatePath (path : String) : List String :=
  splitOnChar '.' path

/-- A row of the `content` table (surrogate id and timestamps are
store-generated and not modelled). -/
structure ContentRow where
  section_key : String
  section_name : String
  content_data : Json
  status : String
  updated_by : String
deriving Repr

/-- Source: src/models/Content.js, `Content.updatePartial`.  A single
`UPDATE ... SET content_data = jsonb_set(content_data, $1, $2, true)
WHERE section_key = $4`; zero matched rows raises "Sección no encontrada". -/
def Content.updatePartial (store : List ContentRow) (sectionKey : String)
    (path : String) (value : Json) (updatedBy : String) :
    Except String (List ContentRow) :=
  let rows := store.map (fun r =>
    if r.section_key = sectionKey then
      { r with content_data := jsonbSet r.content_data (translatePath path) value,
               updated_by := updatedBy }
    else r)
  if store.any (fun r => r.section_key == sectionKey) then Except.ok rows
  else Except.error "Sección no encontrada"

/-- A row of the `plans` table (source: src/models/Plan.js; surrogate `id`
and timestamps are store-generated and not modelled).  `features` is a jsonb
column. -/
structure PlanRow where
  plan_id : String
  name : String
  price : Int
  price_currency : String
  billing_period : String
  description : String
  features : Json
  is_featured : Bool
  cta_text : String
  notes : Option String
  display_order : Int
  status : String
deriving Repr

/-- The `plans` table. -/
abbrev PlanStore : Type := List PlanRow

/-- Input of `Plan.create`; `none` models a JavaScript `undefined` field, for
which the destructuring default applies. -/
structure PlanData where
  plan_id : String
  name : String
  price : Int
  price_currency : Option String
  billing_period : Option String
  description : String
  features : Json
  is_featured : Option Bool
  cta_text : Option String
  notes : Option String
  display_order : Option Int
  status : Option String

/-- The row inserted by `Plan.create` (destructuring defaults applied;
`features` is serialized with `JSON.stringify` and stored in the jsonb
column, which round-trips to the same structured value). -/
def planRowOfData (d : PlanData) : PlanRow :=
  { plan_id := d.plan_id
    name := d.name
    price := d.price
    price_currency := d.price_currency.getD "USD"
    billing_period := d.billing_period.getD "mes"
    description := d.description
    features := d.features
    is_featured := d.is_featured.getD false
    cta_text := d.cta_text.getD "Comenzar Ahora"
    notes := d.notes
    display_order := d.display_order.getD 0
    status := d.status.getD "active" }

/-- Source: src/models/Plan.js, `Plan.create`.  A single `INSERT ...
RETURNING *`; the unique constraint on `plan_id` surfaces a duplicate-key
store error. -/
def Plan.create (s : PlanStore) (d : PlanData) :
    Except String (PlanStore × PlanRow) :=
  if s.any (fun r => r.plan_id == d.plan_id) then
    Except.error "duplicate key value violates unique constraint"
  else
    Except.ok (s ++ [planRowOfData d], planRowOfData d)

/-- Source: src/models/Plan.js, `Plan.getByPlanId`.
`SELECT * FROM plans WHERE plan_id = $1 AND status = 'active'`; returns the
parsed row or null. -/
def Plan.getByPlanId (s : PlanStore) (planId : String) : Option PlanRow :=
  s.find? (fun r => r.plan_id == planId && r.status == "active")

/-- The fixed status enum of `Plan.changeStatus`. -/
def planValidStatuses : List String := ["active", "inactive"]

/-- Source: src/models/Plan.js, `Plan.changeStatus`.  Validates the new
status against the enum before issuing the UPDATE; zero matched rows raises
"Plan no encontrado". -/
def Plan.changeStatus (s : PlanStore) (planId newStatus : String) :
    Except String (PlanStore × PlanRow) :=
  if planValidStatuses.contains newStatus then
    match (s.map (fun r =>
        if r.plan_id == planId then { r with status := newStatus } else r)).find?
        (fun r => r.plan_id == planId) with
    | some row =>
        Except.ok (s.map (fun r =>
          if r.plan_id == planId then { r with status := newStatus } else r), row)
    | none => Except.error "Plan no encontrado"
  else
    Except.error
      ("Estado inválido. Debe ser: " ++ String.intercalate ", " planValidStatuses)

/-- Source: src/models/Plan.js, `Plan.delete` (soft delete):
`changeStatus(planId, 'inactive')` then `true`. -/
def Plan.softDelete (s : PlanStore) (planId : String) :
    Except String (PlanStore × Bool) :=
  (Plan.changeStatus s planId "inactive").map (fun p => (p.1, true))

/-- Source: src/models/Plan.js, `Plan.deleteHard`.  `DELETE ... RETURNING *`;
zero deleted rows raises "Plan no encontrado". -/
def Plan.deleteHard (s : PlanStore) (planId : String) :
    Except String (PlanStore × Bool) :=
  if s.any (fun r => r.plan_id == planId) then
    Except.ok (s.filter (fun r => !(r.plan_id == planId)), true)
  else
    Except.error "Plan no encontrado"

/-- Source: src/models/Plan.js, `Plan.setFeatured`, run inside
`transaction`: when setting `true` it first clears `is_featured` on every
currently-featured row, then sets the flag on the target row; zero matched
rows raises "Plan no encontrado", which rolls the transaction back. -/
def Plan.setFeatured (s : PlanStore) (planId : String) (featured : Bool) :
    Except String (PlanStore × PlanRow) :=
  let s1 := if featured then
      s.map (fun r => if r.is_featured then { r with is_featured := false } else r)
    else s
  let s2 := s1.map (fun r =>
    if r.plan_id == planId then { r with is_featured := featured } else r)
  match s2.find? (fun r => r.plan_id == planId) with
  | some row => Except.ok (s2, row)
  | none => Except.error "Plan no encontrado"

/-- One UPDATE of the `Plan.reorder` loop:
`UPDATE plans SET display_order = $1 WHERE plan_id = $2` (no error when zero
rows match). -/
def applyOrder (s : PlanStore) (pair : String × Int) : PlanStore :=
  s.map (fun r =>
    if r.plan_id == pair.1 then { r with display_order := pair.2 } else r)

/-- The body of `Plan.reorder`'s transaction, with an injected store-failure
oracle: `fail i` means the statement for the i-th pair errors at the store
(for example a constraint or connection failure).  An error aborts the
callback, so `transaction` issues ROLLBACK. -/
def reorderLoop (fail : Nat → Bool) :
    List (String × Int) → Nat → PlanStore → Except String PlanStore
  | [], _, s => Except.ok s
  | p :: rest, i, s =>
      if fail i then Except.error "store error during reorder"
      else reorderLoop fail rest (i + 1) (applyOrder s p)

/-- Source: src/models/Plan.js, `Plan.reorder`, run inside `transaction`
(src/config/database.js: BEGIN, the callback, COMMIT; ROLLBACK and re-throw
on error). -/
def Plan.reorder (fail : Nat → Bool) (s : PlanStore)
    (pairs : List (String × Int)) : Except String PlanStore :=
  reorderLoop fail pairs 0 s

/-- The table state visible after a call: the new state on COMMIT, the
initial state when the statement failed or the transaction rolled back. -/
def postState (init : PlanStore) (r : Except String PlanStore) : PlanStore :=
  match r with
  | Except.ok s' => s'
  | Except.error _ => init

/-- The table state visible after a row-returning call. -/
def postStateRow (init : PlanStore) (r : Except String (PlanStore × PlanRow)) :
    PlanStore :=
  match r with
  | Except.ok p => p.1
  | Except.error _ => init

/-- Number of rows of the `plans` table with `is_featured = true`. -/
def featuredCount (s : PlanStore) : Nat :=
  s.countP (fun r => r.is_featured)

/-- A row of the `blog_posts` table (source: src/models/BlogPost.js;
surrogate id, author join fields, view counter and timestamps not modelled).
`topics` is a jsonb column. -/
structure PostRow where
  episode_id : String
  episode_number : Int
  title : String
  description : String
  status : String
  topics : Json
deriving Repr

/-- Source: src/models/BlogPost.js, `BlogPost.getByEpisodeId`.
`SELECT bp.*, ... FROM blog_posts bp LEFT JOIN users u ... WHERE
bp.episode_id = $1` — note: no status filter.  Returns the parsed row or
null. -/
def BlogPost.getByEpisodeId (s : List PostRow) (episodeId : String) :
    Option PostRow :=
  s.find? (fun r => r.episode_id == episodeId)

/-- The update allow-list of `BlogPost.update`. -/
def blogPostAllowedFields : List String :=
  ["title", "description", "publish_date", "duration", "guest_name",
   "guest_title", "cover_image_url", "audio_url", "is_featured", "topics",
   "status"]

/-- The update allow-list of `Plan.update`. -/
def planAllowedFields : List String :=
  ["name", "price", "price_currency", "billing_period", "description",
   "features", "is_featured", "cta_text", "notes", "display_order", "status"]

/-- Number of `$` parameter markers in a SQL text.  In the generated
statements every `$` introduces exactly one placeholder `$n`, and `$` occurs
nowhere else. -/
def countDollar (sql : String) : Nat :=
  sql.data.countP (fun c => c == '$')

/-- The PostgreSQL extended-query protocol rejects a statement whose number
of bind parameters differs from its number of placeholders ("bind message
supplies N parameters, but prepared statement requires M"). -/
def pgAccepts (sql : String) (params : List String) : Bool :=
  countDollar sql == params.length

/-- Source: src/models/BlogPost.js, `BlogPost.update`, SQL construction.
`Object.entries(updates)` is modelled as the ordered list of defined entries
(values rendered as the strings pushed into `values`).  The source writes
the set clauses with a template literal missing the `$` sign:
`` `${key} = ${paramIndex}` `` and `` `${key} = ${paramIndex}::jsonb` ``,
and likewise `WHERE episode_id = ${paramIndex}` — so the clause text holds
the literal counter value instead of a placeholder.  The multi-line template
whitespace is normalized to single spaces. -/
def BlogPost.buildUpdateSql (updates : List (String × String))
    (episodeId : String) : String × List String :=
  let step := fun (acc : List String × List String × Nat) (kv : String × String) =>
    if blogPostAllowedFields.contains kv.1 then
      if kv.1 == "topics" then
        (acc.1 ++ [kv.1 ++ " = " ++ toString acc.2.2 ++ "::jsonb"],
         acc.2.1 ++ [kv.2], acc.2.2 + 1)
      else
        (acc.1 ++ [kv.1 ++ " = " ++ toString acc.2.2],
         acc.2.1 ++ [kv.2], acc.2.2 + 1)
    else acc
  let built := updates.foldl step ([], [], 1)
  let sql := "UPDATE blog_posts SET "
    ++ String.intercalate ", " (built.1 ++ ["updated_at = CURRENT_TIMESTAMP"])
    ++ " WHERE episode_id = " ++ toString built.2.2 ++ " RETURNING *"
  (sql, built.2.1 ++ [episodeId])

/-- Source: src/models/Plan.js, `Plan.update`, SQL construction — the same
builder but with correct placeholders `` `${key} = $${paramIndex}` `` (and
`$${paramIndex}::jsonb` for `features`, `$${paramIndex}` in the WHERE
clause). -/
def Plan.buildUpdateSql (updates : List (String × String))
    (planId : String) : String × List String :=
  let step := fun (acc : List String × List String × Nat) (kv : String × String) =>
    if planAllowedFields.contains kv.1 then
      if kv.1 == "features" then
        (acc.1 ++ [kv.1 ++ " = $" ++ toString acc.2.2 ++ "::jsonb"],
         acc.2.1 ++ [kv.2], acc.2.2 + 1)
      else
        (acc.1 ++ [kv.1 ++ " = $" ++ toString acc.2.2],
         acc.2.1 ++ [kv.2], acc.2.2 + 1)
    else acc
  let built := updates.foldl step ([], [], 1)
  let sql := "UPDATE plans SET "
    ++ String.intercalate ", " (built.1 ++ ["updated_at = CURRENT_TIMESTAMP"])
    ++ " WHERE plan_id = $" ++ toString built.2.2 ++ " RETURNING *"
  (sql, built.2.1 ++ [planId])

/-- A row of the `leads` table (source: src/models/Service.js, class Lead;
only the fields the verified operations touch are modelled). -/
structure LeadRow where
  id : String
  nombre : String
  email : String
  estado : String
deriving Repr, DecidableEq

/-- The fixed estado enum of `Lead.updateEstado`. -/
def leadEstadosValidos : List String :=
  ["nuevo", "contactado", "calificado", "cerrado"]

/-- Source: src/models/Service.js, `Lead.updateEstado`.  Validates the new
estado against the enum before issuing the UPDATE; zero matched rows raises
"Lead no encontrado". -/
def Lead.updateEstado (s : List LeadRow) (leadId nuevoEstado : String) :
    Except String (List LeadRow × LeadRow) :=
  if leadEstadosValidos.contains nuevoEstado then
    match (s.map (fun r =>
        if r.id == leadId then { r with estado := nuevoEstado } else r)).find?
        (fun r => r.id == leadId) with
    | some row =>
        Except.ok (s.map (fun r =>
          if r.id == leadId then { r with estado := nuevoEstado } else r), row)
    | none => Except.error "Lead no encontrado"
  else
    Except.error
      ("Estado inválido. Debe ser uno de: "
        ++ String.intercalate ", " leadEstadosValidos)

/-- The lead-table state visible after `Lead.updateEstado` (a single
statement: on error nothing was written). -/
def leadPostState (init : List LeadRow)
    (r : Except String (List LeadRow × LeadRow)) : List LeadRow :=
  match r with
  | Except.ok p => p.1
  | Except.error _ => init

/-- A row of the `users` table as selected by `User.findById`
(password hash excluded by the column list). -/
structure UserRow where
  id : String
  email : String
  full_name : String
  role : String
  status : String
deriving Repr, DecidableEq

/-- The `req.user` object attached by the auth middleware. -/
structure ReqUser where
  id : String
  email : String
  role : String
  full_name : String
deriving Repr, DecidableEq

/-- Outcome of the `authenticateToken` middleware: an error response with
its HTTP status, or `next()` with `req.user` attached. -/
inductive AuthOutcome where
  | reject (httpStatus : Nat) (msg : String) : AuthOutcome
  | proceed (user : ReqUser) : AuthOutcome
deriving Repr, DecidableEq

/-- `const token = authHeader && authHeader.split(" ")[1]`: the second
space-separated word of the Authorization header; a missing header, a
missing second word, or an empty second word are all falsy and take the
missing-token branch. -/
def extractToken (authHeader : Option String) : Option String :=
  match authHeader with
  | none => none
  | some h =>
      match (splitOnChar ' ' h).get? 1 with
      | none => none
      | some t => if t == "" then none else some t

/-- Source: src/middleware/auth.js, `authenticateToken`.  `verify` models
`jwt.verify` of the external JWT library: `some id` is a structurally valid,
unexpired token decoding to subject `id`; `none` is a verification failure
(invalid or expired), which the middleware's catch turns into 403.  The
subject is re-resolved against the live users table on every request. -/
def authenticateToken (verify : String → Option String)
    (users : List UserRow) (authHeader : Option String) : AuthOutcome :=
  match extractToken authHeader with
  | none => AuthOutcome.reject 401 "Token de acceso requerido"
  | some tok =>
      match verify tok with
      | none => AuthOutcome.reject 403 "Token inválido o expirado"
      | some uid =>
          match users.find? (fun u => u.id == uid) with
          | none => AuthOutcome.reject 403 "Usuario no encontrado"
          | some u =>
              if u.status == "active" then
                AuthOutcome.proceed
                  { id := u.id, email := u.email, role := u.role,
                    full_name := u.full_name }
              else AuthOutcome.reject 403 "Usuario inactivo o suspendido"

/-- Leading decimal digits of a character list. -/
def leadingNat (cs : List Char) : Option Nat :=
  let ds := cs.takeWhile (fun c => c.isDigit)
  if ds.isEmpty then none
  else some (ds.foldl (fun a c => a * 10 + (c.toNat - 48)) 0)

/-- JavaScript `parseInt(s)` on the decimal inputs the routes receive: an
optional sign followed by leading digits; `none` models `NaN`. -/
def parseIntJs (s : String) : Option Int :=
  match s.data with
  | '-' :: rest => (leadingNat rest).map (fun n => -(n : Int))
  | '+' :: rest => (leadingNat rest).map (fun n => (n : Int))
  | cs => (leadingNat cs).map (fun n => (n : Int))

/-- Source: src/unnamed/part_003 (GET /api/leads):
`page: page ? parseInt(page) : 1` — a missing or empty (falsy) query value
defaults to 1, anything else is passed through `parseInt` verbatim. -/
def leadsRoutePage (pageParam : Option String) : Option Int :=
  match pageParam with
  | none => some 1
  | some sp => if sp == "" then some 1 else parseIntJs sp

/-- Source: src/unnamed/part_003 (GET /api/leads):
`limit: limit ? parseInt(limit) : 20`. -/
def leadsRouteLimit (limitParam : Option String) : Option Int :=
  match limitParam with
  | none => some 20
  | some sl => if sl == "" then some 20 else parseIntJs sl

/-- The pagination block returned by `findAll`. -/
structure Pagination where
  page : Int
  limit : Int
  total : Nat
  pages : Int
deriving Repr, DecidableEq

/-- `Math.ceil(total / limit)` for a natural total and positive integer
limit (the only case the routes exercise; JavaScript produces Infinity or
NaN for limit ≤ 0). -/
def ceilDivJs (total : Nat) (limit : Int) : Int :=
  ((total : Int) + limit - 1) / limit

/-- Source: src/models/Service.js, `Lead.findAll` (no-filters case):
`offset = (page - 1) * limit`, one page query `... ORDER BY fecha DESC
LIMIT $i OFFSET $j`, a mirrored counting query, and the pagination block
with `pages: Math.ceil(total / limit)`.  PostgreSQL rejects a negative
LIMIT or OFFSET, which surfaces as a store error. -/
def Lead.findAll (s : List LeadRow) (page limit : Int) :
    Except String (List LeadRow × Pagination) :=
  let offset := (page - 1) * limit
  if limit < 0 ∨ offset < 0 then
    Except.error "LIMIT/OFFSET must not be negative"
  else
    Except.ok ((s.drop offset.toNat).take limit.toNat,
      { page := page, limit := limit, total := s.length,
        pages := ceilDivJs s.length limit })

/-- The GET /api/leads handler's pagination path: route coercion of the raw
query values followed by `Lead.findAll`; a NaN from `parseInt` reaches the
store as an invalid bind value and errors there. -/
def leadsListHandler (s : List LeadRow) (pageParam limitParam : Option String) :
    Except String (List LeadRow × Pagination) :=
  match leadsRoutePage pageParam, leadsRouteLimit limitParam with
  | some p, some l => Lead.findAll s p l
  | _, _ => Except.error "invalid input syntax for integer"

theorem lookupKey_setKey_self (fs : List (String × Json)) (k : String) (v : Json) :
    lookupKey (setKey fs k v) k = some v := by
  induction fs with
  | nil => simp [setKey, lookupKey]
  | cons hd tl ih =>
    obtain ⟨k0, w⟩ := hd
    by_cases h : k0 = k
    · simp [setKey, h, lookupKey]
    · simp [setKey, h, lookupKey, ih]

theorem lookupKey_setKey_ne (fs : List (String × Json)) (k k' : String)
    (v : Json) (h : k' ≠ k) :
    lookupKey (setKey fs k v) k' = lookupKey fs k' := by
  induction fs with
  | nil => simp [setKey, lookupKey, Ne.symm h]
  | cons hd tl ih =>
    obtain ⟨k0, w⟩ := hd
    by_cases h0 : k0 = k
    · subst h0
      simp [setKey, lookupKey, Ne.symm h]
    · simp [setKey, h0, lookupKey, ih]

theorem getPath_jsonbSet_self (p : List String) (j v : Json)
    (h : pathFits j p = true) : getPath (jsonbSet j p v) p = some v := by
  induction p generalizing j with
  | nil => cases j <;> simp [pathFits] at h
  | cons k rest ih =>
    cases rest with
    | nil =>
      cases j <;> simp [pathFits] at h
      case obj fs => simp [jsonbSet, getPath, lookupKey_setKey_self]
    | cons k2 rest' =>
      cases j <;> simp [pathFits] at h
      case obj fs =>
        cases hc : lookupKey fs k with
        | none => rw [hc] at h; simp at h
        | some child =>
          rw [hc] at h
          simp [jsonbSet, hc, getPath, lookupKey_setKey_self, ih child h]

theorem getPath_jsonbSet_of_diverge (p : List String) (j v : Json)
    (q : List String) (hpq : ¬ p <+: q) (hqp : ¬ q <+: p) :
    getPath (jsonbSet j p v) q = getPath j q := by
  induction p generalizing j q with
  | nil => exact absurd List.nil_prefix hpq
  | cons k rest ih =>
    cases q with
    | nil => exact absurd List.nil_prefix hqp
    | cons m q' =>
      by_cases hkm : k = m
      · subst hkm
        have h1 : ¬ rest <+: q' := fun hh =>
          hpq (List.cons_prefix_cons.mpr ⟨rfl, hh⟩)
        have h2 : ¬ q' <+: rest := fun hh =>
          hqp (List.cons_prefix_cons.mpr ⟨rfl, hh⟩)
        cases rest with
        | nil => exact absurd List.nil_prefix h1
        | cons k2 rest' =>
          cases j with
          | obj fs =>
            cases hc : lookupKey fs k with
            | none => simp [jsonbSet, hc]
            | some child =>
              simp [jsonbSet, hc, getPath, lookupKey_setKey_self, ih child q' h1 h2]
          | null => simp [jsonbSet]
          | bool b => simp [jsonbSet]
          | num n => simp [jsonbSet]
          | str s => simp [jsonbSet]
          | arr xs => simp [jsonbSet]
      · have hmk : m ≠ k := fun hh => hkm hh.symm
        cases j with
        | obj fs =>
          cases rest with
          | nil => simp [jsonbSet, getPath, lookupKey_setKey_ne fs k m v hmk]
          | cons k2 rest' =>
            cases hc : lookupKey fs k with
            | none => simp [jsonbSet, hc]
            | some child =>
              simp [jsonbSet, hc, getPath,
                lookupKey_setKey_ne fs k m (jsonbSet child (k2 :: rest') v) hmk]
        | null => simp [jsonbSet]
        | bool b => simp [jsonbSet]
        | num n => simp [jsonbSet]
        | str s => simp [jsonbSet]
        | arr xs => simp [jsonbSet]

/-- The stored "inicio" section with an empty document, before the partial
update. -/
def c3CexRow : ContentRow :=
  { section_key := "inicio", section_name := "Página de Inicio",
    content_data := Json.obj [], status := "published", updated_by := "u0" }

/-- Claim C3, counterexample: on the stored section "inicio" whose document
is the empty object, `updatePartial("inicio", "hero.titulo", "X")` succeeds
but leaves the document byte-identical — `jsonb_set` does not create the
missing intermediate object `hero`, and the value at the translated path is
absent afterwards, contradicting the claim that the produced document holds
the given value at the path and that intermediate objects are created. -/
theorem content_updatePartial_missing_intermediate_cex :
    Content.updatePartial [c3CexRow] "inicio" "hero.titulo" (Json.str "X") "u1"
      = Except.ok [{ c3CexRow with updated_by := "u1" }] ∧
    jsonbSet (Json.obj []) (translatePath "hero.titulo") (Json.str "X")
      = Json.obj [] ∧
    getPath (jsonbSet (Json.obj []) (translatePath "hero.titulo") (Json.str "X"))
      (translatePath "hero.titulo") = none := by
  exact ⟨rfl, rfl, rfl⟩

/-- Claim C3 (amended): for a stored section and a dotted path all of whose
intermediate steps already exist as
objects in the stored document, `updatePartial` sets the given value at the
translated path, leaves the value at every diverging path (every sibling
key at every level) unchanged, and leaves every other row of the store
untouched.  When an intermediate step is missing the document is returned
unchanged — intermediate objects are NOT created (see the counterexample). -/
theorem content_updatePartial_frame
    (store : List ContentRow) (sectionKey path : String) (value : Json)
    (updatedBy : String) (r : ContentRow)
    (hr : r ∈ store) (hk : r.section_key = sectionKey)
    (hfit : pathFits r.content_data (translatePath path) = true) :
    ∃ rows, Content.updatePartial store sectionKey path value updatedBy
        = Except.ok rows ∧
      (∃ r' ∈ rows, r'.section_key = sectionKey ∧
        r'.content_data = jsonbSet r.content_data (translatePath path) value ∧
        getPath r'.content_data (translatePath path) = some value ∧
        (∀ q, ¬ translatePath path <+: q → ¬ q <+: translatePath path →
          getPath r'.content_data q = getPath r.content_data q)) ∧
      (∀ r'' ∈ store, r''.section_key ≠ sectionKey → r'' ∈ rows) := by
  refine ⟨store.map (fun r0 : ContentRow =>
    if r0.section_key = sectionKey then
      { r0 with
        content_data := jsonbSet r0.content_data (translatePath path) value,
        updated_by := updatedBy }
    else r0), ?_, ?_, ?_⟩
  · unfold Content.updatePartial
    have hany : store.any (fun r0 => r0.section_key == sectionKey) = true := by
      rw [List.any_eq_true]
      exact ⟨r, hr, by simp [hk]⟩
    simp only [hany, if_true]
  · refine ⟨{ r with
        content_data := jsonbSet r.content_data (translatePath path) value,
        updated_by := updatedBy }, ?_, ?_, ?_, ?_, ?_⟩
    · have := List.mem_map_of_mem (f := fun r0 : ContentRow =>
        if r0.section_key = sectionKey then
          { r0 with
            content_data := jsonbSet r0.content_data (translatePath path) value,
            updated_by := updatedBy }
        else r0) hr
      simpa [hk] using this
    · exact hk
    · rfl
    · exact getPath_jsonbSet_self (translatePath path) r.content_data value hfit
    · intro q hq1 hq2
      exact getPath_jsonbSet_of_diverge (translatePath path) r.content_data
        value q hq1 hq2
  · intro r'' hr'' hne
    have := List.mem_map_of_mem (f := fun r0 : ContentRow =>
      if r0.section_key = sectionKey then
        { r0 with
          content_data := jsonbSet r0.content_data (translatePath path) value,
          updated_by := updatedBy }
      else r0) hr''
    simpa [hne] using this

/-- The stored "inicio" section used by the C3 witness: a document with a
`hero` object holding `titulo` and `subtitulo`, plus a second top-level key. -/
def c3WitnessRow : ContentRow :=
  { section_key := "inicio", section_name := "Página de Inicio",
    content_data := Json.obj
      [("hero", Json.obj
          [("titulo", Json.str "old"), ("subtitulo", Json.str "sub")]),
       ("otro", Json.str "z")],
    status := "published", updated_by := "u0" }

/-- Witness for the C3 theorem at the spec's own example:
`updatePartial("inicio", "hero.titulo", "X")` on a section whose `hero`
object exists. -/
theorem content_updatePartial_frame_witness :
    ∃ rows, Content.updatePartial [c3WitnessRow] "inicio" "hero.titulo"
        (Json.str "X") "u1" = Except.ok rows ∧
      (∃ r' ∈ rows, r'.section_key = "inicio" ∧
        r'.content_data = jsonbSet c3WitnessRow.content_data
          (translatePath "hero.titulo") (Json.str "X") ∧
        getPath r'.content_data (translatePath "hero.titulo")
          = some (Json.str "X") ∧
        (∀ q, ¬ translatePath "hero.titulo" <+: q →
          ¬ q <+: translatePath "hero.titulo" →
          getPath r'.content_data q = getPath c3WitnessRow.content_data q)) ∧
      (∀ r'' ∈ [c3WitnessRow], r''.section_key ≠ "inicio" → r'' ∈ rows) :=
  content_updatePartial_frame [c3WitnessRow] "inicio" "hero.titulo"
    (Json.str "X") "u1" c3WitnessRow (List.mem_singleton.mpr rfl) rfl rfl

theorem clear_featured_eq (r : PlanRow) :
    (if r.is_featured then { r with is_featured := false } else r)
      = { r with is_featured := false } := by
  by_cases h : r.is_featured
  · simp [h]
  · cases r
    simp_all

/-- The pointwise effect of `setFeatured(planId, true)`'s two UPDATEs on a
row: featured exactly when the row is the target. -/
def featuredTarget (p : String) (r : PlanRow) : PlanRow :=
  if r.plan_id == p then { r with is_featured := true }
  else { r with is_featured := false }

theorem setFeatured_true_state (s : PlanStore) (p : String) :
    Plan.setFeatured s p true =
      match (s.map (featuredTarget p)).find? (fun r => r.plan_id == p) with
      | some row => Except.ok (s.map (featuredTarget p), row)
      | none => Except.error "Plan no encontrado" := by
  have hmap : ((s.map (fun r =>
      if r.is_featured then { r with is_featured := false } else r)).map
        (fun r => if r.plan_id == p then { r with is_featured := true } else r))
      = s.map (featuredTarget p) := by
    rw [List.map_map]
    apply List.map_congr_left
    intro a _
    simp only [Function.comp, clear_featured_eq]
    by_cases h : a.plan_id == p
    · simp [featuredTarget, h]
    · simp [featuredTarget, h]
  simp only [Plan.setFeatured, if_true, hmap]

theorem featuredTarget_plan_id (p : String) (r : PlanRow) :
    (featuredTarget p r).plan_id = r.plan_id := by
  by_cases h : r.plan_id == p <;> simp [featuredTarget, h]

theorem featuredTarget_is_featured (p : String) (r : PlanRow) :
    (featuredTarget p r).is_featured = (r.plan_id == p) := by
  by_cases h : r.plan_id == p <;> simp [featuredTarget, h]

/-- Claim C1: for a plan id present in the plans table (whose `plan_id`
column is unique), `setFeatured(planId, true)` — one transaction that clears
`is_featured` on every featured row and then sets it on the target —
succeeds, and immediately afterwards exactly one plan row has
`is_featured = true`, namely the target row. -/
theorem plan_setFeatured_exclusive (s : PlanStore) (p : String)
    (hnd : (s.map (fun r => r.plan_id)).Nodup)
    (hp : ∃ r ∈ s, r.plan_id = p) :
    ∃ s' row, Plan.setFeatured s p true = Except.ok (s', row) ∧
      row.plan_id = p ∧
      featuredCount s' = 1 ∧
      ∀ r ∈ s', r.is_featured = true → r.plan_id = p := by
  classical
  obtain ⟨r0, hr0, hr0p⟩ := hp
  have hfind : ∃ row, (s.map (featuredTarget p)).find?
      (fun r => r.plan_id == p) = some row := by
    have : ((s.map (featuredTarget p)).find? (fun r => r.plan_id == p)).isSome := by
      rw [List.find?_isSome]
      exact ⟨featuredTarget p r0, List.mem_map_of_mem _ hr0,
        by simp [featuredTarget_plan_id, hr0p]⟩
    exact Option.isSome_iff_exists.mp this
  obtain ⟨row, hrow⟩ := hfind
  have hrowp : row.plan_id = p := by
    have := List.find?_some hrow
    simpa using this
  refine ⟨s.map (featuredTarget p), row, ?_, hrowp, ?_, ?_⟩
  · rw [setFeatured_true_state, hrow]
  · have h1 : featuredCount (s.map (featuredTarget p))
        = s.countP (fun r => r.plan_id == p) := by
      unfold featuredCount
      rw [List.countP_map]
      apply List.countP_congr
      intro x _
      simp [Function.comp, featuredTarget_is_featured]
    have h2 : s.countP (fun r => r.plan_id == p)
        = (s.map (fun r => r.plan_id)).count p := by
      rw [List.count, List.countP_map]
      rfl
    have h3 : (s.map (fun r => r.plan_id)).count p = 1 :=
      List.count_eq_one_of_mem hnd
        (hr0p ▸ List.mem_map_of_mem (fun r => r.plan_id) hr0)
    rw [h1, h2, h3]
  · intro r hr hfeat
    obtain ⟨x, _, hx⟩ := List.mem_map.mp hr
    rw [← hx] at hfeat
    rw [featuredTarget_is_featured] at hfeat
    rw [← hx, featuredTarget_plan_id]
    exact eq_of_beq hfeat

/-- A concrete featured plan row. -/
def planRowStarter : PlanRow :=
  { plan_id := "starter", name := "Starter", price := 100,
    price_currency := "USD", billing_period := "mes",
    description := "Plan básico", features := Json.arr [Json.str "A"],
    is_featured := true, cta_text := "Comenzar Ahora", notes := none,
    display_order := 0, status := "active" }

/-- A concrete non-featured plan row. -/
def planRowPro : PlanRow :=
  { plan_id := "professional", name := "Professional", price := 300,
    price_currency := "USD", billing_period := "mes",
    description := "Plan completo", features := Json.arr [Json.str "B"],
    is_featured := false, cta_text := "Comenzar Ahora", notes := none,
    display_order := 1, status := "active" }

/-- Witness for the C1 theorem: on a table where "starter" is featured,
`setFeatured("professional", true)` leaves exactly "professional"
featured. -/
theorem plan_setFeatured_exclusive_witness :
    ∃ s' row, Plan.setFeatured [planRowStarter, planRowPro] "professional" true
        = Except.ok (s', row) ∧
      row.plan_id = "professional" ∧
      featuredCount s' = 1 ∧
      ∀ r ∈ s', r.is_featured = true → r.plan_id = "professional" :=
  plan_setFeatured_exclusive [planRowStarter, planRowPro] "professional"
    (by decide)
    ⟨planRowPro, List.mem_cons_of_mem _ (List.mem_singleton.mpr rfl), rfl⟩

/-- `Plan.create` input asking for a featured "starter" plan. -/
def planDataStarter : PlanData :=
  { plan_id := "starter", name := "Starter", price := 100,
    price_currency := none, billing_period := none,
    description := "Plan básico", features := Json.arr [Json.str "A"],
    is_featured := some true, cta_text := none, notes := none,
    display_order := none, status := none }

/-- `Plan.create` input asking for a featured "professional" plan. -/
def planDataPro : PlanData :=
  { plan_id := "professional", name := "Professional", price := 300,
    price_currency := none, billing_period := none,
    description := "Plan completo", features := Json.arr [Json.str "B"],
    is_featured := some true, cta_text := none, notes := none,
    display_order := none, status := none }

/-- Claim C2, counterexample: starting from the empty table (reachable),
`create` with `is_featured: true` yields a state satisfying the invariant
(one featured row); a second `create` with `is_featured: true` succeeds and
yields TWO featured rows — `Plan.create` performs a plain INSERT and never
clears the flag on other rows, so it does not preserve the at-most-one-
featured invariant. -/
theorem plan_featured_invariant_create_cex :
    ((Plan.create [] planDataStarter).map (fun q => featuredCount q.1)
      = Except.ok 1) ∧
    (((Plan.create [] planDataStarter).bind
        (fun q => Plan.create q.1 planDataPro)).map (fun q => featuredCount q.1)
      = Except.ok 2) :=
  ⟨rfl, rfl⟩

theorem featuredCount_map_le (s : PlanStore) (f : PlanRow → PlanRow)
    (h : ∀ r, (f r).is_featured = true → r.is_featured = true) :
    featuredCount (s.map f) ≤ featuredCount s := by
  unfold featuredCount
  rw [List.countP_map]
  exact List.countP_mono_left (fun x _ hx => h x hx)

theorem featuredCount_map_eq (s : PlanStore) (f : PlanRow → PlanRow)
    (h : ∀ r, (f r).is_featured = r.is_featured) :
    featuredCount (s.map f) = featuredCount s := by
  unfold featuredCount
  rw [List.countP_map]
  apply List.countP_congr
  intro x _
  simp [Function.comp, h x]

theorem featuredCount_featuredTarget_le (s : PlanStore) (p : String)
    (hnd : (s.map (fun r => r.plan_id)).Nodup) :
    featuredCount (s.map (featuredTarget p)) ≤ 1 := by
  have h1 : featuredCount (s.map (featuredTarget p))
      = s.countP (fun r => r.plan_id == p) := by
    unfold featuredCount
    rw [List.countP_map]
    apply List.countP_congr
    intro x _
    simp [Function.comp, featuredTarget_is_featured]
  have h2 : s.countP (fun r => r.plan_id == p)
      = (s.map (fun r => r.plan_id)).count p := by
    rw [List.count, List.countP_map]
    rfl
  rw [h1, h2]
  exact List.nodup_iff_count_le_one.mp hnd p

theorem plan_changeStatus_featuredCount (s : PlanStore) (p st : String)
    (out : PlanStore × PlanRow) (h : Plan.changeStatus s p st = Except.ok out) :
    featuredCount out.1 = featuredCount s := by
  unfold Plan.changeStatus at h
  split at h
  · split at h
    · injection h with h'
      rw [← h']
      apply featuredCount_map_eq
      intro r
      by_cases hb : r.plan_id == p <;> simp [hb]
    · cases h
  · cases h

theorem featuredCount_applyOrder (s : PlanStore) (pr : String × Int) :
    featuredCount (applyOrder s pr) = featuredCount s := by
  apply featuredCount_map_eq
  intro r
  by_cases hb : r.plan_id == pr.1 <;> simp [hb]

theorem reorderLoop_featuredCount (fail : Nat → Bool)
    (pairs : List (String × Int)) :
    ∀ i (s s' : PlanStore), reorderLoop fail pairs i s = Except.ok s' →
      featuredCount s' = featuredCount s := by
  induction pairs with
  | nil =>
    intro i s s' h
    injection h with h'
    rw [h']
  | cons pr rest ih =>
    intro i s s' h
    unfold reorderLoop at h
    split at h
    · cases h
    · rw [ih (i + 1) (applyOrder s pr) s' h, featuredCount_applyOrder]

theorem setFeatured_false_state (s : PlanStore) (p : String) :
    Plan.setFeatured s p false =
      match (s.map (fun r =>
          if r.plan_id == p then { r with is_featured := false } else r)).find?
          (fun r => r.plan_id == p) with
      | some row =>
          Except.ok (s.map (fun r =>
            if r.plan_id == p then { r with is_featured := false } else r), row)
      | none => Except.error "Plan no encontrado" := rfl

theorem plan_setFeatured_featuredCount (s : PlanStore) (p : String) (b : Bool)
    (out : PlanStore × PlanRow)
    (hnd : (s.map (fun r => r.plan_id)).Nodup)
    (hinv : featuredCount s ≤ 1)
    (h : Plan.setFeatured s p b = Except.ok out) :
    featuredCount out.1 ≤ 1 := by
  cases b
  · rw [setFeatured_false_state] at h
    split at h
    · injection h with h'
      rw [← h']
      exact le_trans
        (featuredCount_map_le s _ (by
          intro r hr
          by_cases hb : r.plan_id == p
          · simp [hb] at hr
          · simpa [hb] using hr))
        hinv
    · cases h
  · rw [setFeatured_true_state] at h
    split at h
    · injection h with h'
      rw [← h']
      exact featuredCount_featuredTarget_le s p hnd
    · cases h

/-- Claim C2 (amended): the invariant "at most one Plan row has
`is_featured = true`" is preserved, on any table state with unique plan ids
satisfying it, by `setFeatured` (either flag value), `changeStatus`,
`reorder`, `delete` (soft) and `deleteHard`.  It is NOT preserved by
`create` and `update` (and hence `importFromJSON`, which is built from
them): those issue plain INSERT/UPDATE statements that never clear the flag
on other rows — see the counterexample, where a second featured `create`
produces two featured rows. -/
theorem plan_featured_invariant_preserved
    (s : PlanStore) (hnd : (s.map (fun r => r.plan_id)).Nodup)
    (hinv : featuredCount s ≤ 1) :
    (∀ p b out, Plan.setFeatured s p b = Except.ok out →
      featuredCount out.1 ≤ 1) ∧
    (∀ p st out, Plan.changeStatus s p st = Except.ok out →
      featuredCount out.1 ≤ 1) ∧
    (∀ fail pairs s', Plan.reorder fail s pairs = Except.ok s' →
      featuredCount s' ≤ 1) ∧
    (∀ p out, Plan.softDelete s p = Except.ok out →
      featuredCount out.1 ≤ 1) ∧
    (∀ p out, Plan.deleteHard s p = Except.ok out →
      featuredCount out.1 ≤ 1) := by
  refine ⟨?_, ?_, ?_, ?_, ?_⟩
  · intro p b out h
    exact plan_setFeatured_featuredCount s p b out hnd hinv h
  · intro p st out h
    rw [plan_changeStatus_featuredCount s p st out h]
    exact hinv
  · intro fail pairs s' h
    rw [reorderLoop_featuredCount fail pairs 0 s s' h]
    exact hinv
  · intro p out h
    unfold Plan.softDelete at h
    cases hq : Plan.changeStatus s p "inactive" with
    | ok q =>
      rw [hq] at h
      injection h with h'
      rw [← h']
      rw [plan_changeStatus_featuredCount s p "inactive" q hq]
      exact hinv
    | error e =>
      rw [hq] at h
      cases h
  · intro p out h
    unfold Plan.deleteHard at h
    split at h
    · injection h with h'
      rw [← h']
      exact le_trans (List.Sublist.countP_le _ (List.filter_sublist s)) hinv
    · cases h

/-- Witness for the C2 theorem on a concrete invariant-satisfying table. -/
theorem plan_featured_invariant_preserved_witness :
    (∀ p b out,
      Plan.setFeatured [planRowStarter, planRowPro] p b = Except.ok out →
      featuredCount out.1 ≤ 1) ∧
    (∀ p st out,
      Plan.changeStatus [planRowStarter, planRowPro] p st = Except.ok out →
      featuredCount out.1 ≤ 1) ∧
    (∀ fail pairs s',
      Plan.reorder fail [planRowStarter, planRowPro] pairs = Except.ok s' →
      featuredCount s' ≤ 1) ∧
    (∀ p out,
      Plan.softDelete [planRowStarter, planRowPro] p = Except.ok out →
      featuredCount out.1 ≤ 1) ∧
    (∀ p out,
      Plan.deleteHard [planRowStarter, planRowPro] p = Except.ok out →
      featuredCount out.1 ≤ 1) :=
  plan_featured_invariant_preserved [planRowStarter, planRowPro]
    (by decide) (by decide)

theorem reorderLoop_all_or_error (fail : Nat → Bool) :
    ∀ (pairs : List (String × Int)) (i : Nat) (s : PlanStore),
      reorderLoop fail pairs i s = Except.ok (pairs.foldl applyOrder s) ∨
      ∃ e, reorderLoop fail pairs i s = Except.error e := by
  intro pairs
  induction pairs with
  | nil => intro i s; left; rfl
  | cons pr rest ih =>
    intro i s
    unfold reorderLoop
    by_cases hf : fail i
    · right
      exact ⟨"store error during reorder", by simp [hf]⟩
    · simp only [hf, Bool.false_eq_true, if_false, List.foldl_cons]
      exact ih (i + 1) (applyOrder s pr)

theorem reorderLoop_ok_of_nofail (fail : Nat → Bool) :
    ∀ (pairs : List (String × Int)) (i : Nat) (s : PlanStore),
      (∀ k, k < pairs.length → fail (i + k) = false) →
      reorderLoop fail pairs i s = Except.ok (pairs.foldl applyOrder s) := by
  intro pairs
  induction pairs with
  | nil => intro i s _; rfl
  | cons pr rest ih =>
    intro i s h
    have h0 : fail i = false := by
      have := h 0 (Nat.succ_pos rest.length)
      simpa using this
    unfold reorderLoop
    simp only [h0, Bool.false_eq_true, if_false, List.foldl_cons]
    apply ih (i + 1) (applyOrder s pr)
    intro k hk
    have := h (k + 1) (Nat.succ_lt_succ hk)
    have harith : i + (k + 1) = i + 1 + k := by omega
    rwa [harith] at this

/-- Claim C8: `reorder(orderPairs)` runs all its display_order UPDATEs
inside one transaction, so under any injected per-statement failure the
visible table state is all-or-nothing: either every pair was applied (and
when no statement fails, the call commits with exactly that state), or the
transaction rolled back and the table — in particular every row's
`display_order` — is unchanged. -/
theorem plan_reorder_atomic (fail : Nat → Bool) (s : PlanStore)
    (pairs : List (String × Int)) :
    (postState s (Plan.reorder fail s pairs) = pairs.foldl applyOrder s ∨
      postState s (Plan.reorder fail s pairs) = s) ∧
    ((∀ i, i < pairs.length → fail i = false) →
      Plan.reorder fail s pairs = Except.ok (pairs.foldl applyOrder s)) := by
  constructor
  · rcases reorderLoop_all_or_error fail pairs 0 s with h | ⟨e, h⟩
    · left
      unfold Plan.reorder
      rw [h]
      rfl
    · right
      unfold Plan.reorder
      rw [h]
      rfl
  · intro h
    unfold Plan.reorder
    apply reorderLoop_ok_of_nofail fail pairs 0 s
    intro k hk
    simpa using h k hk
/-- Witness for the C8 theorem: a two-pair reorder with no injected failure
commits the fold of both updates. -/
theorem plan_reorder_atomic_witness :
    Plan.reorder (fun _ => false) [planRowStarter, planRowPro]
        [("starter", 5), ("professional", 2)]
      = Except.ok ([("starter", 5), ("professional", 2)].foldl applyOrder
          [planRowStarter, planRowPro]) :=
  (plan_reorder_atomic (fun _ => false) [planRowStarter, planRowPro]
    [("starter", 5), ("professional", 2)]).2 (fun _ _ => rfl)

/-- Claim C4: evaluation of the update SQL builders at a concrete failing
input.  `BlogPost.update("ep-001", {title: "Nuevo título"})` builds a SET
clause `title = 1` and a WHERE clause `episode_id = 2` — the template
literals in src/models/BlogPost.js (and likewise src/models/Product.js)
write `${paramIndex}` instead of `$${paramIndex}`, so the statement contains
zero `$` placeholders while two bind parameters are sent, and PostgreSQL
rejects every such call; `Plan.update`'s builder, by contrast, produces
proper placeholders and is accepted.  The stored row therefore never
receives the supplied values, contradicting the claim for BlogPost and
Product. -/
theorem blogPost_update_malformed_sql :
    (BlogPost.buildUpdateSql [("title", "Nuevo título")] "ep-001").1
      = "UPDATE blog_posts SET title = 1, updated_at = CURRENT_TIMESTAMP WHERE episode_id = 2 RETURNING *" ∧
    countDollar (BlogPost.buildUpdateSql [("title", "Nuevo título")] "ep-001").1
      = 0 ∧
    (BlogPost.buildUpdateSql [("title", "Nuevo título")] "ep-001").2.length
      = 2 ∧
    pgAccepts (BlogPost.buildUpdateSql [("title", "Nuevo título")] "ep-001").1
      (BlogPost.buildUpdateSql [("title", "Nuevo título")] "ep-001").2
      = false ∧
    (Plan.buildUpdateSql [("name", "Nuevo")] "plan-1").1
      = "UPDATE plans SET name = $1, updated_at = CURRENT_TIMESTAMP WHERE plan_id = $2 RETURNING *" ∧
    pgAccepts (Plan.buildUpdateSql [("name", "Nuevo")] "plan-1").1
      (Plan.buildUpdateSql [("name", "Nuevo")] "plan-1").2 = true := by
  exact ⟨rfl, rfl, rfl, rfl, rfl, rfl⟩

/-- A draft podcast episode row. -/
def draftPost : PostRow :=
  { episode_id := "ep-001", episode_number := 1, title := "Piloto",
    description := "Episodio piloto", status := "draft",
    topics := Json.arr [] }

/-- Claim C5, counterexample: `BlogPost.getByEpisodeId` carries no status
filter, so with no override flag it returns a row whose status is "draft" —
not active/published — contradicting the claim that the point lookup
returns the entity only when the row is active/published. -/
theorem blogPost_getByEpisodeId_draft_cex :
    BlogPost.getByEpisodeId [draftPost] "ep-001" = some draftPost ∧
    draftPost.status = "draft" :=
  ⟨rfl, rfl⟩

/-- Claim C5 (amended): `Plan.getByPlanId` returns a row only when it
matches the key AND has status "active", and returns null (not an error)
when no such row exists; `BlogPost.getByEpisodeId`, however, filters by key
only — it returns the matching row REGARDLESS of status (see the
counterexample) and returns null when no row matches the key. -/
theorem point_lookup_visibility (ps : PlanStore) (bs : List PostRow)
    (k ke : String) :
    (∀ r, Plan.getByPlanId ps k = some r →
      r.plan_id = k ∧ r.status = "active") ∧
    ((∀ r ∈ ps, ¬ (r.plan_id = k ∧ r.status = "active")) →
      Plan.getByPlanId ps k = none) ∧
    (∀ r, BlogPost.getByEpisodeId bs ke = some r → r.episode_id = ke) ∧
    ((∀ r ∈ bs, r.episode_id ≠ ke) → BlogPost.getByEpisodeId bs ke = none) := by
  refine ⟨?_, ?_, ?_, ?_⟩
  · intro r hr
    have := List.find?_some hr
    simp only [Bool.and_eq_true, beq_iff_eq] at this
    exact this
  · intro hnone
    unfold Plan.getByPlanId
    rw [List.find?_eq_none]
    intro x hx
    simp only [Bool.and_eq_true, beq_iff_eq]
    exact fun hc => hnone x hx hc
  · intro r hr
    have := List.find?_some hr
    simpa using this
  · intro hnone
    unfold BlogPost.getByEpisodeId
    rw [List.find?_eq_none]
    intro x hx
    simpa using hnone x hx

/-- Witness for the C5 theorem: both point lookups return null when nothing
matches. -/
theorem point_lookup_visibility_witness :
    Plan.getByPlanId [planRowPro] "starter" = none ∧
    BlogPost.getByEpisodeId [draftPost] "ep-999" = none := by
  constructor
  · apply (point_lookup_visibility [planRowPro] [draftPost] "starter" "ep-999").2.1
    intro r hr
    rw [List.mem_singleton] at hr
    subst hr
    simp [planRowPro]
  · apply (point_lookup_visibility [planRowPro] [draftPost] "starter" "ep-999").2.2.2
    intro r hr
    rw [List.mem_singleton] at hr
    subst hr
    simp [draftPost]

/-- `Plan.create` input whose status is explicitly "inactive". -/
def planDataInactive : PlanData :=
  { plan_id := "legacy", name := "Legacy", price := 50,
    price_currency := none, billing_period := none,
    description := "Plan antiguo", features := Json.arr [],
    is_featured := none, cta_text := none, notes := none,
    display_order := none, status := some "inactive" }

/-- Claim C6, counterexample: a valid record created with status
"inactive" is inserted, but the follow-up `getByPlanId` — which only sees
active rows — returns null instead of the created record, so
create-then-get does not return a record equal to the input for every valid
field record. -/
theorem plan_create_get_roundtrip_cex :
    Plan.create [] planDataInactive
      = Except.ok ([planRowOfData planDataInactive],
          planRowOfData planDataInactive) ∧
    (planRowOfData planDataInactive).status = "inactive" ∧
    Plan.getByPlanId [planRowOfData planDataInactive] "legacy" = none :=
  ⟨rfl, rfl, rfl⟩

/-- Claim C6 (amended): when the business key is fresh and the record's
status is "active" (the destructuring default), `create` followed by
`getByBusinessKey` returns exactly the inserted row, whose fields are the
supplied data with defaults applied and whose jsonb `features` parse back to
the structured value supplied at creation; for a record created with a
non-visible status the lookup returns null (see the counterexample). -/
theorem plan_create_get_roundtrip (s : PlanStore) (d : PlanData)
    (hfresh : ∀ r ∈ s, r.plan_id ≠ d.plan_id)
    (hstatus : d.status.getD "active" = "active") :
    Plan.create s d
      = Except.ok (s ++ [planRowOfData d], planRowOfData d) ∧
    Plan.getByPlanId (s ++ [planRowOfData d]) d.plan_id
      = some (planRowOfData d) ∧
    (planRowOfData d).plan_id = d.plan_id ∧
    (planRowOfData d).name = d.name ∧
    (planRowOfData d).price = d.price ∧
    (planRowOfData d).description = d.description ∧
    (planRowOfData d).features = d.features ∧
    (planRowOfData d).notes = d.notes := by
  have hany : s.any (fun r => r.plan_id == d.plan_id) = false := by
    rw [List.any_eq_false]
    intro x hx
    simpa using hfresh x hx
  refine ⟨?_, ?_, rfl, rfl, rfl, rfl, rfl, rfl⟩
  · unfold Plan.create
    rw [hany]
    rfl
  · unfold Plan.getByPlanId
    rw [List.find?_append]
    have h1 : s.find?
        (fun r => r.plan_id == d.plan_id && r.status == "active") = none := by
      rw [List.find?_eq_none]
      intro x hx
      simp only [Bool.and_eq_true, beq_iff_eq]
      exact fun hc => hfresh x hx hc.1
    have h2 : [planRowOfData d].find?
        (fun r => r.plan_id == d.plan_id && r.status == "active")
        = some (planRowOfData d) := by
      rw [List.find?_singleton]
      have hst : (planRowOfData d).status = "active" := hstatus
      simp [planRowOfData, hst, hstatus]
    rw [h1, h2]
    rfl

/-- Witness for the C6 theorem: creating the default-status "starter" plan
in the empty table and reading it back. -/
theorem plan_create_get_roundtrip_witness :
    Plan.create [] planDataStarter
      = Except.ok ([] ++ [planRowOfData planDataStarter],
          planRowOfData planDataStarter) ∧
    Plan.getByPlanId ([] ++ [planRowOfData planDataStarter])
        planDataStarter.plan_id
      = some (planRowOfData planDataStarter) ∧
    (planRowOfData planDataStarter).plan_id = planDataStarter.plan_id ∧
    (planRowOfData planDataStarter).name = planDataStarter.name ∧
    (planRowOfData planDataStarter).price = planDataStarter.price ∧
    (planRowOfData planDataStarter).description
      = planDataStarter.description ∧
    (planRowOfData planDataStarter).features = planDataStarter.features ∧
    (planRowOfData planDataStarter).notes = planDataStarter.notes :=
  plan_create_get_roundtrip [] planDataStarter (fun r hr => absurd hr
    (List.not_mem_nil r)) rfl

/-- A stored plan with business key "plan-x". -/
def planRowX : PlanRow :=
  { plan_id := "plan-x", name := "Plan X", price := 10,
    price_currency := "USD", billing_period := "mes",
    description := "Plan de prueba", features := Json.arr [],
    is_featured := false, cta_text := "Comenzar Ahora", notes := none,
    display_order := 0, status := "active" }

/-- A stored lead. -/
def leadRow1 : LeadRow :=
  { id := "l1", nombre := "Juan Pérez", email := "juan@example.com",
    estado := "nuevo" }

/-- Claim C7: `changeStatus` (Plan) and `updateEstado` (Lead) validate the
new status against the entity's fixed enum BEFORE issuing any UPDATE: an
out-of-enum value fails with a validation error whose message names the
allowed set, and the table — in particular the record's status — is
unchanged. -/
theorem changeStatus_invalid_rejected (sp : PlanStore) (sl : List LeadRow)
    (k kl st e : String)
    (hst : planValidStatuses.contains st = false)
    (he : leadEstadosValidos.contains e = false) :
    (Plan.changeStatus sp k st = Except.error
        ("Estado inválido. Debe ser: "
          ++ String.intercalate ", " planValidStatuses) ∧
      postStateRow sp (Plan.changeStatus sp k st) = sp) ∧
    (Lead.updateEstado sl kl e = Except.error
        ("Estado inválido. Debe ser uno de: "
          ++ String.intercalate ", " leadEstadosValidos) ∧
      leadPostState sl (Lead.updateEstado sl kl e) = sl) := by
  have h1 : Plan.changeStatus sp k st = Except.error
      ("Estado inválido. Debe ser: "
        ++ String.intercalate ", " planValidStatuses) := by
    unfold Plan.changeStatus
    rw [hst]
    rfl
  have h2 : Lead.updateEstado sl kl e = Except.error
      ("Estado inválido. Debe ser uno de: "
        ++ String.intercalate ", " leadEstadosValidos) := by
    unfold Lead.updateEstado
    rw [he]
    rfl
  refine ⟨⟨h1, ?_⟩, h2, ?_⟩
  · rw [h1]
    rfl
  · rw [h2]
    rfl

/-- Witness for the C7 theorem at the spec's own example:
`changeStatus("plan-x", "deleted")` fails for Plan (enum {active,
inactive}), and an out-of-enum lead estado fails likewise; both leave the
store unchanged. -/
theorem changeStatus_invalid_rejected_witness :
    (Plan.changeStatus [planRowX] "plan-x" "deleted" = Except.error
        ("Estado inválido. Debe ser: "
          ++ String.intercalate ", " planValidStatuses) ∧
      postStateRow [planRowX]
        (Plan.changeStatus [planRowX] "plan-x" "deleted") = [planRowX]) ∧
    (Lead.updateEstado [leadRow1] "l1" "spam" = Except.error
        ("Estado inválido. Debe ser uno de: "
          ++ String.intercalate ", " leadEstadosValidos) ∧
      leadPostState [leadRow1]
        (Lead.updateEstado [leadRow1] "l1" "spam") = [leadRow1]) :=
  changeStatus_invalid_rejected [planRowX] [leadRow1] "plan-x" "l1"
    "deleted" "spam" (by decide) (by decide)

/-- Claim C9: on every request, a missing (falsy) bearer token yields
HTTP 401; a structurally invalid or expired token yields HTTP 403, never
401; a valid token whose subject is not found in the live users table
yields 403; a valid token whose resolved user has status other than
"active" yields 403; and `req.user` is attached only for an active user
found in the live users table. -/
theorem authenticateToken_codes (verify : String → Option String)
    (users : List UserRow) (hd : Option String) :
    (extractToken hd = none →
      authenticateToken verify users hd
        = AuthOutcome.reject 401 "Token de acceso requerido") ∧
    (∀ t, extractToken hd = some t → verify t = none →
      authenticateToken verify users hd
        = AuthOutcome.reject 403 "Token inválido o expirado") ∧
    (∀ t uid, extractToken hd = some t → verify t = some uid →
      users.find? (fun u => u.id == uid) = none →
      authenticateToken verify users hd
        = AuthOutcome.reject 403 "Usuario no encontrado") ∧
    (∀ t uid u, extractToken hd = some t → verify t = some uid →
      users.find? (fun u => u.id == uid) = some u → u.status ≠ "active" →
      authenticateToken verify users hd
        = AuthOutcome.reject 403 "Usuario inactivo o suspendido") ∧
    (∀ ru, authenticateToken verify users hd = AuthOutcome.proceed ru →
      ∃ u, u ∈ users ∧ u.status = "active" ∧
        ru = { id := u.id, email := u.email, role := u.role,
               full_name := u.full_name }) := by
  refine ⟨?_, ?_, ?_, ?_, ?_⟩
  · intro hnone
    unfold authenticateToken
    rw [hnone]
  · intro t ht hv
    unfold authenticateToken
    rw [ht]
    simp only [hv]
  · intro t uid ht hv hf
    unfold authenticateToken
    rw [ht]
    simp only [hv, hf]
  · intro t uid u ht hv hf hst
    unfold authenticateToken
    rw [ht]
    simp only [hv, hf]
    rw [if_neg (by simpa using hst)]
  · intro ru hru
    unfold authenticateToken at hru
    cases hext : extractToken hd with
    | none => rw [hext] at hru; cases hru
    | some t =>
      rw [hext] at hru
      cases hv : verify t with
      | none => simp only [hv] at hru; cases hru
      | some uid =>
        simp only [hv] at hru
        cases hf : users.find? (fun u => u.id == uid) with
        | none => simp only [hf] at hru; cases hru
        | some u =>
          simp only [hf] at hru
          by_cases hst : u.status == "active"
          · rw [if_pos hst] at hru
            injection hru with h'
            exact ⟨u, List.mem_of_find?_eq_some hf, by simpa using hst, h'.symm⟩
          · rw [if_neg hst] at hru
            cases hru

/-- The JWT verifier used by the C9 witness: accepts exactly "tok1" with
subject "u1". -/
def verifyW : String → Option String :=
  fun t => if t == "tok1" then some "u1" else none

/-- A suspended user on record. -/
def userSuspended : UserRow :=
  { id := "u1", email := "ana@example.com", full_name := "Ana",
    role := "editor", status := "suspended" }

/-- Witness for the C9 theorem: a structurally valid token whose resolved
user is suspended is rejected with 403. -/
theorem authenticateToken_codes_witness :
    authenticateToken verifyW [userSuspended] (some "Bearer tok1")
      = AuthOutcome.reject 403 "Usuario inactivo o suspendido" :=
  (authenticateToken_codes verifyW [userSuspended]
      (some "Bearer tok1")).2.2.2.1 "tok1" "u1" userSuspended rfl rfl rfl
    (by decide)

/-- Claim C10, counterexample: the route passes `parseInt(page)` through
without clamping — `page=0` stays 0 (not a positive integer), the computed
offset is (0 − 1) × 20 = −20, and the store rejects the negative OFFSET
instead of the value having been coerced to a positive integer. -/
theorem leads_page_not_coerced_cex :
    leadsRoutePage (some "0") = some 0 ∧
    ¬ ((0 : Int) ≥ 1) ∧
    leadsListHandler [] (some "0") none
      = Except.error "LIMIT/OFFSET must not be negative" :=
  ⟨rfl, by decide, rfl⟩

/-- Claim C10 (amended): `page` and `limit` default to 1 and 20 when absent
but are otherwise passed through `parseInt` unclamped (page=0 or a negative
page errors at the store rather than being coerced — see the
counterexample).  For positive page and limit the query offset is
(page − 1) × limit, the returned rows are the corresponding LIMIT/OFFSET
window, `pages` = ⌈total / limit⌉, and a page past the last yields an empty
array, not an error. -/
theorem leads_pagination (s : List LeadRow) (page limit : Int)
    (hp : 1 ≤ page) (hl : 1 ≤ limit) :
    ∃ rows pg, Lead.findAll s page limit = Except.ok (rows, pg) ∧
      rows = (s.drop ((page - 1) * limit).toNat).take limit.toNat ∧
      pg.page = page ∧ pg.limit = limit ∧ pg.total = s.length ∧
      pg.pages = ((s.length : Int) + limit - 1) / limit ∧
      ((s.length : Int) ≤ (page - 1) * limit → rows = []) := by
  have hoff : 0 ≤ (page - 1) * limit :=
    mul_nonneg (by omega) (by omega)
  have hcond : ¬ (limit < 0 ∨ (page - 1) * limit < 0) := by
    push_neg
    exact ⟨by omega, hoff⟩
  refine ⟨(s.drop ((page - 1) * limit).toNat).take limit.toNat,
    { page := page, limit := limit, total := s.length,
      pages := ceilDivJs s.length limit }, ?_, rfl, rfl, rfl, rfl, rfl, ?_⟩
  · unfold Lead.findAll
    rw [if_neg hcond]
  · intro hpast
    have hlen : s.length ≤ ((page - 1) * limit).toNat := by omega
    rw [List.drop_eq_nil_of_le hlen, List.take_nil]
/-- Witness for the C10 theorem at the spec's own numbers: 45 rows with
limit 10 give pages = 5, the 5th page holds 5 rows, and page 6 is empty. -/
theorem leads_pagination_witness :
    (∃ rows pg, Lead.findAll (List.replicate 45 leadRow1) 5 10
        = Except.ok (rows, pg) ∧ rows.length = 5 ∧ pg.pages = 5) ∧
    (∃ rows pg, Lead.findAll (List.replicate 45 leadRow1) 6 10
        = Except.ok (rows, pg) ∧ rows = []) := by
  constructor
  · obtain ⟨rows, pg, h1, h2, _, _, _, h6, _⟩ :=
      leads_pagination (List.replicate 45 leadRow1) 5 10 (by decide) (by decide)
    refine ⟨rows, pg, h1, ?_, ?_⟩
    · rw [h2]
      rfl
    · rw [h6]
      rfl
  · obtain ⟨rows, pg, h1, _, _, _, _, _, h7⟩ :=
      leads_pagination (List.replicate 45 leadRow1) 6 10 (by decide) (by decide)
    exact ⟨rows, pg, h1, h7 (by decide)⟩
